import Mathlib

/-!
Verification of the mtt-system-telegram-miniapp front-end against its
natural-language specification.

The repository is a React (Telegram mini-app) front-end for a vehicle-terminal
management system.  The developments below are shallow embeddings of the
relevant source functions:

* `MTT.B64` — `base64ToBlob` and its helpers (`atob`, `String.split(',')`,
  the regex `/:(.*?);/`), from `ExitEntryPage.tsx` lines 185–195 and
  `ExitByIdPage.tsx` lines 167–177 (the two copies are identical).
* `MTT.Capture` — the canvas-dimension logic of `capturePhoto`
  (`ExitEntryPage.tsx` lines 92–111, `ExitByIdPage.tsx` lines 129–147).
* `MTT.ExitEntry` — the multi-shot exit workflow (`ExitEntryPage.tsx`):
  state, `openCamera`, `capturePhoto`/`processPhoto`, `deletePhoto`,
  `submitExitEntry`, modelled as a step function over user/network events.
* `MTT.ExitById` — the exit-by-id workflow (`ExitByIdPage.tsx`).
* `MTT.Vehicles` — cursor pagination of the vehicles list
  (`fetchVehicleEntries` / `loadMore`).
* `MTT.Submit` — the shared non-2xx / 2xx response handling of the two
  exit-submission functions.

JavaScript strings are modelled as `String` or `List Char`; JS numbers as `ℚ`
(exact rationals; float rounding is outside the model); network responses and
camera outcomes are inputs to the embedded functions, since they come from the
environment.  React's asynchronous state updates are collapsed to their net
effect: every `async` handler runs synchronously up to its first `await`, and
the completion of the awaited call is a separate event.
-/

namespace MTT

/-- `'EMPTY' | 'LOADED'` — the `LoadStatus` union type of both exit pages. -/
inductive LoadStatus where
  | EMPTY
  | LOADED
deriving DecidableEq, Repr

/-- The `RecognitionResult` interface (`ExitEntryPage.tsx` lines 10–15,
`ExitByIdPage.tsx` lines 27–32). `confidence` is a JSON number, modelled
exactly as a rational. -/
structure RecognitionResult where
  plate_number : String
  confidence : ℚ
  success : Bool
  error_message : Option String
deriving DecidableEq, Repr

/-- The JavaScript whitespace set: the `\s` character class of regular
expressions, which coincides with the WhiteSpace ∪ LineTerminator set used
by `String.prototype.trim` (ASCII whitespace, NBSP, the Unicode space
separators, the line/paragraph separators and the BOM). -/
def jsWhitespace (c : Char) : Bool :=
  c = ' ' ∨ c = '\t' ∨ c = '\n' ∨ c = '\x0b' ∨ c = '\x0c' ∨ c = '\r' ∨
  c = Char.ofNat 0xa0 ∨ c = Char.ofNat 0x1680 ∨
  (Char.ofNat 0x2000 ≤ c ∧ c ≤ Char.ofNat 0x200a) ∨
  c = Char.ofNat 0x2028 ∨ c = Char.ofNat 0x2029 ∨ c = Char.ofNat 0x202f ∨
  c = Char.ofNat 0x205f ∨ c = Char.ofNat 0x3000 ∨ c = Char.ofNat 0xfeff

/-- `string.trim()`: strip JavaScript whitespace from both ends. -/
def jsTrim (s : String) : String :=
  String.mk (((s.data.dropWhile jsWhitespace).reverse.dropWhile jsWhitespace).reverse)

namespace B64

/-- The five ASCII whitespace characters stripped by the `atob`
forgiving-base64 decoder (space, tab, line feed, form feed, carriage
return). -/
def isAsciiWs (c : Char) : Bool :=
  c = ' ' ∨ c = '\t' ∨ c = '\n' ∨ c = '\x0c' ∨ c = '\r'

/-- Value of one character of the standard base64 alphabet, `none` for any
character outside it (including `'='`, which `atob` only tolerates as
stripped trailing padding). -/
def b64Index (c : Char) : Option Nat :=
  if 'A' ≤ c ∧ c ≤ 'Z' then some (c.toNat - 'A'.toNat)
  else if 'a' ≤ c ∧ c ≤ 'z' then some (c.toNat - 'a'.toNat + 26)
  else if '0' ≤ c ∧ c ≤ '9' then some (c.toNat - '0'.toNat + 52)
  else if c = '+' then some 62
  else if c = '/' then some 63
  else none

/-- Decode a list of 6-bit values into bytes: full groups of four values give
three bytes, a trailing group of two or three gives one or two bytes, and a
trailing single value is an error (`length % 4 = 1`). -/
def decodeChunks : List Nat → Option (List Nat)
  | [] => some []
  | [_] => none
  | [a, b] => some [a * 4 + b / 16]
  | [a, b, c] => some [a * 4 + b / 16, (b % 16) * 16 + c / 4]
  | a :: b :: c :: d :: rest =>
    match decodeChunks rest with
    | some tail => some ([a * 4 + b / 16, (b % 16) * 16 + c / 4, (c % 4) * 64 + d] ++ tail)
    | none => none

/-- Strip at most two trailing `'='` characters, as the forgiving-base64
decoder does when the whitespace-free input length is a multiple of four. -/
def stripPad (t : List Char) : List Char :=
  if t.length % 4 = 0 then
    match t.reverse with
    | '=' :: '=' :: rest => rest.reverse
    | '=' :: rest => rest.reverse
    | _ => t
  else t

/-- The browser `atob` builtin (forgiving-base64 decode), returning the code
points of the resulting binary string, or `none` when `atob` throws
`InvalidCharacterError`. -/
def atobBytes (s : List Char) : Option (List Nat) :=
  let t := stripPad (s.filter (fun c => ! isAsciiWs c))
  if t.length % 4 = 1 then none
  else
    match t.mapM b64Index with
    | some vals => decodeChunks vals
    | none => none

/-- JavaScript `string.split(sep)` for a single-character separator: splits on
every occurrence, keeping empty segments. -/
def jsSplit (sep : Char) : List Char → List (List Char)
  | [] => [[]]
  | c :: rest =>
    if c = sep then [] :: jsSplit sep rest
    else
      match jsSplit sep rest with
      | [] => [[c]]
      | h :: t => (c :: h) :: t

/-- Characters that `.` in a JavaScript regular expression (without the `s`
flag) does not match. -/
def dotExcluded (c : Char) : Bool :=
  c = '\n' ∨ c = '\r' ∨ c = Char.ofNat 0x2028 ∨ c = Char.ofNat 0x2029

/-- Matching of the lazy tail `(.*?);` of the regex `/:(.*?);/`: the capture
runs to the first `';'`, and fails if a `.`-unmatchable character comes
first. -/
def takeUntilSemi : List Char → Option (List Char)
  | [] => none
  | c :: rest =>
    if c = ';' then some []
    else if dotExcluded c then none
    else
      match takeUntilSemi rest with
      | some l => some (c :: l)
      | none => none

/-- `header.match(/:(.*?);/)?.[1]`: the leftmost `':'` from which a `';'` is
reachable starts the match; the capture is everything strictly between
them. -/
def matchMime : List Char → Option (List Char)
  | [] => none
  | c :: rest =>
    if c = ':' then
      match takeUntilSemi rest with
      | some cap => some cap
      | none => matchMime rest
    else matchMime rest

/-- A `Blob([u8arr], { type: mime })` value: its byte contents and its MIME
type. -/
structure Blob where
  bytes : List Nat
  type : List Char
deriving DecidableEq, Repr

/-- The `while (n--) { u8arr[n] = bstr.charCodeAt(n); }` loop of
`base64ToBlob`: fills indices `k-1, k-2, …, 0` of `u8` with the code points
of `bstr`. -/
def fillLoop (bstr : List Nat) : List Nat → Nat → List Nat
  | u8, 0 => u8
  | u8, k + 1 => fillLoop bstr (u8.set k (bstr.getD k 0)) k

/-- `base64ToBlob` (`ExitEntryPage.tsx` lines 185–195, identical copy in
`ExitByIdPage.tsx` lines 167–177).  `none` models a thrown exception: a
missing second `split(',')` segment makes `atob` receive the coerced string
`"undefined"` (which is rejected), and an invalid base64 payload makes `atob`
throw. -/
def base64ToBlob (input : List Char) : Option Blob :=
  let arr := jsSplit ',' input
  let hdr := arr.headD []
  match arr.get? 1 with
  | none => none
  | some payload =>
    let mime : List Char :=
      match matchMime hdr with
      | some m => if m = [] then "image/png".data else m
      | none => "image/png".data
    match atobBytes payload with
    | none => none
    | some bstr =>
      some ⟨fillLoop bstr (List.replicate bstr.length 0) bstr.length, mime⟩

end B64

namespace Capture

/-- The canvas-dimension computation of `capturePhoto` (`ExitEntryPage.tsx`
lines 97–111 and identically `ExitByIdPage.tsx` lines 134–147): returns the
`(canvas.width, canvas.height)` assigned before drawing the frame. -/
def capturePhotoDims (videoWidth videoHeight : ℚ) : ℚ × ℚ :=
  let maxWidth : ℚ := 1280
  let maxHeight : ℚ := 720
  let aspectRatio : ℚ := videoWidth / videoHeight
  if maxWidth < videoWidth then (maxWidth, maxWidth / aspectRatio)
  else if maxHeight < videoHeight then (maxHeight * aspectRatio, maxHeight)
  else (videoWidth, videoHeight)

end Capture

namespace ExitEntry

/-- The React state of `ExitEntryPage` (`ExitEntryPage.tsx` lines 23–32),
plus `outstanding`: the in-flight plate-recognition request issued by
`processPhoto` (image data and photo index of the awaited
`submitPhotoWithImage` call), which in the browser lives in the suspended
`async` frame rather than in React state. -/
structure EEState where
  isCameraOpen : Bool
  isCameraLoading : Bool
  isSubmitting : Bool
  isSubmittingExit : Bool
  allPhotos : List String
  currentProcessingIndex : Int
  capturedImage : Option String
  recognitionResult : Option RecognitionResult
  plateNumber : String
  exitLoadStatus : LoadStatus
  outstanding : List (String × Nat)
deriving DecidableEq, Repr

/-- Initial state of the page before the auto-open of the camera. -/
def eeInit : EEState :=
  { isCameraOpen := false, isCameraLoading := false, isSubmitting := false
    isSubmittingExit := false, allPhotos := [], currentProcessingIndex := -1
    capturedImage := none, recognitionResult := none, plateNumber := ""
    exitLoadStatus := .EMPTY, outstanding := [] }

/-- `recognitionResult?.success` — whether a successful recognition result is
currently stored. -/
def resultSuccess (s : EEState) : Bool :=
  match s.recognitionResult with
  | some r => r.success
  | none => false

/-- `openCamera` (`ExitEntryPage.tsx` lines 42–90) collapsed to its net state
effect.  `camOk` is the environment outcome: the stream was obtained and
bound to the video element (success path, camera open and no longer
loading), or any failure was thrown (catch path: loading cleared, camera
closed again, alert shown). -/
def openCamera (s : EEState) (camOk : Bool) : EEState :=
  if camOk then { s with isCameraOpen := true, isCameraLoading := false }
  else { s with isCameraOpen := false, isCameraLoading := false }

/-- `deletePhoto(index)` (`ExitEntryPage.tsx` lines 131–146): the photo is
removed by `filter((_, i) => i !== index)`; if the removed photo's data
equals `capturedImage` and the stored result is successful, the accepted
result, image and plate are cleared and `openCamera` is awaited (`camOk` is
that call's outcome).  An out-of-range index reads `undefined`, which is
never strictly equal to a string or to `null`. -/
def deletePhoto (s : EEState) (i : Nat) (camOk : Bool) : EEState :=
  let remaining := s.allPhotos.eraseIdx i
  match s.allPhotos.get? i with
  | none => { s with allPhotos := remaining }
  | some p =>
    if s.capturedImage = some p ∧ resultSuccess s then
      openCamera
        { s with allPhotos := remaining, capturedImage := none
                 recognitionResult := none, plateNumber := "" } camOk
    else { s with allPhotos := remaining }

/-- User and network events of one `ExitEntryPage` instance.
`captureTap` is a tap on the shutter button carrying the frame data encoded
by `canvas.toDataURL` (an environment input); `recogDone` is the resolution
of the in-flight `submitPhotoWithImage` call (`none` models a non-2xx
response or a thrown fetch error, both of which return `null`);
`deleteTap i camOk` is a tap on a thumbnail's delete button; `doneTap` the
Done button, `backTap` the close button (both just hide the camera view);
`editPlate` edits the plate `Input`; `setLoad` picks a radio option. -/
inductive EEEvent where
  | openCam (camOk : Bool)
  | captureTap (img : String)
  | recogDone (resp : Option RecognitionResult)
  | deleteTap (i : Nat) (camOk : Bool)
  | doneTap
  | backTap
  | editPlate (p : String)
  | setLoad (ls : LoadStatus)
deriving DecidableEq, Repr

/-- One step of the `ExitEntryPage` workflow.

`captureTap` embeds `handleCameraCapture → capturePhoto → processPhoto`
(`ExitEntryPage.tsx` lines 92–129, 148–183, 237–240, 510–526): the shutter
button exists only while the camera view is open and is
`disabled={isSubmitting}`; the photo is appended first; `processPhoto` then
returns immediately when a successful result is already stored, and
otherwise sets the in-progress flag and index and issues the recognition
request.  The run from the tap to the `await submitPhotoWithImage` contains
no suspension point, so it is one atomic step.

`recogDone` embeds the rest of `processPhoto` (lines 159–182): a successful
result stores the accepted image, result and plate; any other outcome just
clears the in-progress flag and index. -/
def eeStep (s : EEState) : EEEvent → EEState
  | .openCam camOk => openCamera s camOk
  | .captureTap img =>
    if s.isCameraOpen ∧ ¬ s.isSubmitting then
      let photoIndex := s.allPhotos.length
      let s1 := { s with allPhotos := s.allPhotos ++ [img] }
      if resultSuccess s1 then s1
      else
        { s1 with isSubmitting := true, currentProcessingIndex := photoIndex
                  outstanding := s1.outstanding ++ [(img, photoIndex)] }
    else s
  | .recogDone resp =>
    match s.outstanding with
    | [] => s
    | (img, _) :: rest =>
      match resp with
      | some r =>
        if r.success then
          { s with capturedImage := some img, recognitionResult := some r
                   plateNumber := r.plate_number, isSubmitting := false
                   currentProcessingIndex := -1, outstanding := rest }
        else
          { s with isSubmitting := false, currentProcessingIndex := -1
                   outstanding := rest }
      | none =>
        { s with isSubmitting := false, currentProcessingIndex := -1
                 outstanding := rest }
  | .deleteTap i camOk => deletePhoto s i camOk
  | .doneTap => { s with isCameraOpen := false }
  | .backTap => { s with isCameraOpen := false }
  | .editPlate p => { s with plateNumber := p }
  | .setLoad ls => { s with exitLoadStatus := ls }

/-- Run a sequence of events from the initial page state. -/
def runEE (evs : List EEEvent) : EEState :=
  evs.foldl eeStep eeInit

/-- The rendering predicate marking a thumbnail as the accepted one
(`ExitEntryPage.tsx` lines 348, 572):
`capturedImage === photo && recognitionResult?.success`. -/
def isAcceptedPhoto (s : EEState) (photo : String) : Bool :=
  (s.capturedImage = some photo) ∧ resultSuccess s

/-- Number of gallery entries rendered with the accepted marker. -/
def countAccepted (s : EEState) : Nat :=
  (s.allPhotos.filter (fun p => isAcceptedPhoto s p)).length

/-- The photo at index `i` is the currently accepted one (the delete-branch
condition of `deletePhoto`). -/
def acceptedAt (s : EEState) (i : Nat) : Prop :=
  ∃ p, s.allPhotos.get? i = some p ∧ s.capturedImage = some p ∧ resultSuccess s

/-- Executable form of `acceptedAt`. -/
def acceptedAtB (s : EEState) (i : Nat) : Bool :=
  match s.allPhotos.get? i with
  | some p => isAcceptedPhoto s p
  | none => false

theorem acceptedAt_iff (s : EEState) (i : Nat) :
    acceptedAt s i ↔ acceptedAtB s i = true := by
  unfold acceptedAt acceptedAtB
  cases h : s.allPhotos.get? i with
  | none => simp
  | some p => simp [isAcceptedPhoto]

instance (s : EEState) (i : Nat) : Decidable (acceptedAt s i) :=
  decidable_of_iff (acceptedAtB s i = true) (acceptedAt_iff s i).symm

end ExitEntry

namespace ExitById

/-- The fields of the `VehicleEntry` interface of `ExitByIdPage.tsx`
(lines 16–25) that the page's logic reads; the remaining fields
(`status`, `vehicle_type`, displays, `customer`, `created_at`) are only
rendered and never branch the behaviour under verification. -/
structure VehicleInfo where
  id : Nat
  license_plate : String
deriving DecidableEq, Repr

/-- The React state of `ExitByIdPage` (`ExitByIdPage.tsx` lines 42–53). -/
structure ByIdState where
  vehicleData : Option VehicleInfo
  isLoadingVehicle : Bool
  isCameraOpen : Bool
  isCameraLoading : Bool
  isSubmittingExit : Bool
  capturedPhoto : Option String
  plateNumber : String
  exitLoadStatus : LoadStatus
  isRecognizing : Bool
  recognitionResult : Option RecognitionResult
deriving DecidableEq, Repr

/-- `plate.replace(/\s+/g, '').toUpperCase()` — drop every JavaScript `\s`
character (see `MTT.jsWhitespace`) and uppercase the rest (`Char.toUpper`
covers the ASCII letters occurring in plates). -/
def normalizePlate (s : String) : String :=
  String.mk ((s.data.filter (fun c => ! jsWhitespace c)).map Char.toUpper)

/-- The content of the mismatch toast (`ExitByIdPage.tsx` line 227). -/
def mismatchMsg (detected expected : String) : String :=
  "Рақам мос келмади! Аниқланган: " ++ detected ++ ", Кутилган: " ++ expected

/-- The content of the recognition-failure toast (`ExitByIdPage.tsx`
line 238). -/
def recogFailedMsg : String :=
  "Рақам аниқланмади. Илтимос, қўлда киритинг"

/-- `capturePhoto` (`ExitByIdPage.tsx` lines 129–159) up to its state effect:
`frame` is the environment outcome (`some` encoded data when the video,
canvas and 2d context are available, `none` otherwise).  On success the photo
is stored and the camera view closed; the data is also returned. -/
def capturePhoto (s : ByIdState) (frame : Option String) : ByIdState × Option String :=
  match frame with
  | some d => ({ s with capturedPhoto := some d, isCameraOpen := false }, some d)
  | none => (s, none)

/-- `deletePhoto` (`ExitByIdPage.tsx` lines 161–165): clears the captured
photo, the recognition result and the plate field — and nothing else. -/
def deletePhoto (s : ByIdState) : ByIdState :=
  { s with capturedPhoto := none, recognitionResult := none, plateNumber := "" }

/-- `handleCameraCapture` (`ExitByIdPage.tsx` lines 209–246): capture a
frame; when one is produced, await `recognizePlate` (`resp` is its outcome,
`none` for a non-2xx response or thrown fetch).  On `success=true` the
recognized and expected plates are compared whitespace-stripped and
uppercased; a non-empty expected plate that differs raises the mismatch
toast, and the plate field is always set to the recognized value.  Returns
the final state and the toasts shown. -/
def handleCameraCapture (s : ByIdState) (frame : Option String)
    (resp : Option RecognitionResult) : ByIdState × List String :=
  let (s1, img) := capturePhoto s frame
  match img with
  | none => (s1, [])
  | some _ =>
    let s2 := { s1 with isRecognizing := true, recognitionResult := none }
    match resp with
    | some r =>
      if r.success then
        let s3 := { s2 with recognitionResult := some r }
        let recognizedPlate := normalizePlate r.plate_number
        let rawVehiclePlate :=
          match s3.vehicleData with
          | some v => v.license_plate
          | none => ""
        let vehiclePlate := normalizePlate rawVehiclePlate
        let toasts :=
          if vehiclePlate ≠ "" ∧ recognizedPlate ≠ vehiclePlate then
            [mismatchMsg r.plate_number rawVehiclePlate]
          else []
        ({ s3 with plateNumber := r.plate_number, isRecognizing := false }, toasts)
      else
        ({ s2 with recognitionResult := some r, isRecognizing := false },
         [recogFailedMsg])
    | none =>
      ({ s2 with recognitionResult := none, isRecognizing := false },
       [recogFailedMsg])

end ExitById

namespace Submit

/-- Outcome of reading and parsing the non-2xx response body in the two
exit-submission functions: `JSON.parse(errorText)` threw (`malformed`), or it
produced a value whose optional chain `errorJson.error?.message` gives
`errMsg` (`none` when `error` or `message` is absent or `null`/`undefined`). -/
inductive RespBody where
  | malformed
  | json (errMsg : Option String)
deriving DecidableEq, Repr

/-- The generic failure toast of both pages. -/
def genericErrMsg : String := "Хатолик юз берди"

/-- The success toast of both pages. -/
def successMsg : String := "Муваффақиятли чиқарилди!"

/-- `errorJson.error?.message || 'Хатолик юз берди'` — the `||` falls back on
any falsy value, so an absent chain or an empty-string message both yield the
generic text. -/
def exitErrorNotice (body : RespBody) : String :=
  match body with
  | .malformed => genericErrMsg
  | .json none => genericErrMsg
  | .json (some m) => if m = "" then genericErrMsg else m

/-- The multipart exit-submission request common to both pages: the raw
captured photos (each converted by `base64ToBlob` at serialization — see
`MTT.B64`), the trimmed plate, and the load status; `exit_time` is
`new Date().toISOString()`, an environment value outside the model. -/
structure ExitRequest where
  photos : List String
  license_plate : String
  exit_load_status : LoadStatus
deriving DecidableEq, Repr

end Submit

namespace ExitEntry

/-- The validation prefix of `submitExitEntry` (`ExitEntryPage.tsx`
lines 263–304): an untrimmed-empty plate or an empty photo list shows a
toast and returns before any network call; otherwise the multipart request
is built and issued.  Returns the request (if issued) and the toasts
shown. -/
def submitExitEntryReq (s : EEState) : Option Submit.ExitRequest × List String :=
  if jsTrim s.plateNumber = "" then (none, ["Илтимос, номер киритинг"])
  else if s.allPhotos.length = 0 then (none, ["Илтимос, расм олинг"])
  else
    (some { photos := s.allPhotos, license_plate := jsTrim s.plateNumber
            exit_load_status := s.exitLoadStatus }, [])

/-- The render condition of the submit button (`ExitEntryPage.tsx`
lines 401–412): `plateNumber.trim() && allPhotos.length > 0`. -/
def submitAvailable (s : EEState) : Bool :=
  ¬ (jsTrim s.plateNumber = "") ∧ 0 < s.allPhotos.length

/-- The response tail of `submitExitEntry` (`ExitEntryPage.tsx`
lines 306–337), given the server's status and body.  On non-2xx (lines
308–321) the body is read and opportunistically parsed: the toast shows the
parsed message or the generic text, and the function returns without
navigating.  On 2xx the code first runs `await response.json()` (line 323):
a body that is not well-formed JSON makes it throw into the `catch`
(lines 332–334), which shows `'Хатолик: ' + <thrown message>` and never
navigates — `errMsg` is that thrown parse-error message, an environment
value; only a well-formed body reaches the success toast (line 326) and the
`setTimeout(navigate, 1000)` (lines 329–331).  Network errors thrown by
`fetch` itself (no response at all) are outside this function's inputs. -/
def handleSubmitResponse (ok : Bool) (body : Submit.RespBody) (errMsg : String) :
    List String × Option Nat :=
  if ok then
    match body with
    | .malformed => (["Хатолик: " ++ errMsg], none)
    | .json _ => ([Submit.successMsg], some 1000)
  else ([Submit.exitErrorNotice body], none)

end ExitEntry

namespace ExitById

/-- The validation prefix of `submitExit` (`ExitByIdPage.tsx` lines 260–295):
a missing photo or an untrimmed-empty plate shows a toast and returns before
any network call. -/
def submitExitReq (s : ByIdState) : Option Submit.ExitRequest × List String :=
  if s.capturedPhoto = none then (none, ["Илтимос, расм олинг"])
  else if jsTrim s.plateNumber = "" then
    (none, ["Илтимос, давлат рақамини киритинг"])
  else
    (some { photos := (match s.capturedPhoto with | some p => [p] | none => [])
            license_plate := jsTrim s.plateNumber
            exit_load_status := s.exitLoadStatus }, [])

/-- The render condition of the submit button (`ExitByIdPage.tsx`
lines 415–426): `capturedPhoto && plateNumber.trim() && !isRecognizing`. -/
def submitAvailable (s : ByIdState) : Bool :=
  s.capturedPhoto.isSome ∧ ¬ (jsTrim s.plateNumber = "") ∧ ¬ s.isRecognizing

/-- The response tail of `submitExit` (`ExitByIdPage.tsx` lines 297–315):
the non-2xx handling is identical to the multi-shot page, but the 2xx path
never reads the response body — the success toast and the
`setTimeout(navigate, 1000)` follow unconditionally. -/
def handleSubmitResponse (ok : Bool) (body : Submit.RespBody) :
    List String × Option Nat :=
  if ok then ([Submit.successMsg], some 1000)
  else ([Submit.exitErrorNotice body], none)

/-- A concrete exit-by-id state in which a photo has been captured and
accepted (recognition succeeded) and the camera view is closed. -/
def sampleAccepted : ByIdState :=
  { vehicleData := some ⟨7, "01A123BC"⟩, isLoadingVehicle := false
    isCameraOpen := false, isCameraLoading := false, isSubmittingExit := false
    capturedPhoto := some "data:image/jpeg;base64,QUJD", plateNumber := "01A123BC"
    exitLoadStatus := .EMPTY, isRecognizing := false
    recognitionResult := some ⟨"01A123BC", 9/10, true, none⟩ }

end ExitById

namespace Vehicles

/-- The fields of a vehicles-list entry that the pagination logic handles;
entries flow from the server response into the rendered list unchanged, so
the display-only fields of the `VehicleEntry` interface (`part_002`
lines 27–51) are elided. -/
structure VEntry where
  id : Nat
  license_plate : String
deriving DecidableEq, Repr

/-- The `VehicleEntriesResponse` payload (`part_002` lines 53–58) as consumed
by `fetchVehicleEntries`: `count` and `previous` are never read. -/
structure PageResponse where
  results : List VEntry
  next : Option String
deriving DecidableEq, Repr

/-- The list-view state of `VehiclesPage` (`part_002` lines 78–81), plus
`pendingReq`: the `url` argument of the in-flight `fetchVehicleEntries`
call (`none` = the base entries URL), living in the suspended `async`
frame. -/
structure VState where
  vehicleEntries : List VEntry
  isLoadingList : Bool
  hasMoreData : Bool
  nextPageUrl : Option String
  pendingReq : Option (Option String)
deriving DecidableEq, Repr

/-- Initial list state (`part_002` lines 78–81). -/
def vInit : VState :=
  { vehicleEntries := [], isLoadingList := false, hasMoreData := true
    nextPageUrl := none, pendingReq := none }

/-- Events of the list view: the mount-time `fetchVehicleEntries()`, the
`InfiniteScroll` `loadMore` callback, and the completion of the in-flight
request (`some` = 2xx with parsed body, `none` = non-2xx or thrown). -/
inductive VEvent where
  | initialLoad
  | loadMoreTap
  | response (r : Option PageResponse)
deriving DecidableEq, Repr

/-- The synchronous prefix of `fetchVehicleEntries(url?)` (`part_002`
lines 130–143): bail out if a request is already loading, else set the
loading flag and issue the GET to `url` or the base URL.  The second
component is the request issued, if any. -/
def fetchStart (s : VState) (url : Option String) : VState × Option (Option String) :=
  if s.isLoadingList then (s, none)
  else ({ s with isLoadingList := true, pendingReq := some url }, some url)

/-- One step of the list view; the second component is the network request
issued by the step, if any.

`loadMoreTap` embeds `loadMore` (`part_002` lines 181–185): the guard
`nextPageUrl && hasMoreData && !isLoadingList` (a JavaScript string is
truthy when non-empty) and then `fetchVehicleEntries(nextPageUrl)`.

`response` embeds the rest of `fetchVehicleEntries` (lines 145–171): on a
2xx parsed body, append the results when the call had a `url` argument and
replace them otherwise, store the server cursor, recompute `hasMoreData`,
and clear the loading flag; on failure just clear the loading flag. -/
def vStep (s : VState) : VEvent → VState × Option (Option String)
  | .initialLoad => fetchStart s none
  | .loadMoreTap =>
    match s.nextPageUrl with
    | some u =>
      if u ≠ "" ∧ s.hasMoreData ∧ ¬ s.isLoadingList then fetchStart s (some u)
      else (s, none)
    | none => (s, none)
  | .response r =>
    match s.pendingReq with
    | none => (s, none)
    | some url =>
      match r with
      | some d =>
        ({ s with
            vehicleEntries :=
              match url with
              | some _ => s.vehicleEntries ++ d.results
              | none => d.results
            nextPageUrl := d.next
            hasMoreData := d.next.isSome
            isLoadingList := false
            pendingReq := none }, none)
      | none =>
        ({ s with isLoadingList := false, pendingReq := none }, none)

/-- Run a sequence of list-view events from the initial state. -/
def runV (evs : List VEvent) : VState :=
  evs.foldl (fun s e => (vStep s e).1) vInit

/-- Invariant of the list view: the loading flag tracks exactly the
in-flight request, and a paginated in-flight request carries exactly the
cursor last returned by the server (the current `nextPageUrl`, which only
a server response can change). -/
def VInv (s : VState) : Prop :=
  s.isLoadingList = s.pendingReq.isSome ∧
  (∀ u, s.pendingReq = some (some u) → s.nextPageUrl = some u)

end Vehicles

namespace ExitEntry

/-- Invariant of the multi-shot workflow: at most one recognition request is
in flight, exactly when the in-progress flag is set, and never while a
successful result is already stored. -/
def EEInv (s : EEState) : Prop :=
  s.outstanding.length ≤ 1 ∧
  (s.isSubmitting = true ↔ s.outstanding ≠ []) ∧
  (resultSuccess s = true → s.outstanding = [])

theorem eeInv_init : EEInv eeInit := by
  refine ⟨by simp [eeInit], by simp [eeInit], by simp [eeInit, resultSuccess]⟩

theorem eeStep_inv {s : EEState} (h : EEInv s) (e : EEEvent) :
    EEInv (eeStep s e) := by
  obtain ⟨h1, h2, h3⟩ := h
  cases e with
  | openCam camOk =>
    cases camOk <;> exact ⟨h1, h2, h3⟩
  | captureTap img =>
    simp only [eeStep]
    by_cases hg : (s.isCameraOpen = true ∧ ¬ s.isSubmitting = true)
    · rw [if_pos hg]
      by_cases hsucc : resultSuccess { s with allPhotos := s.allPhotos ++ [img] } = true
      · rw [if_pos hsucc]
        exact ⟨h1, h2, fun _ => h3 hsucc⟩
      · rw [if_neg hsucc]
        have hout : s.outstanding = [] := by
          by_contra hne
          exact hg.2 (h2.mpr hne)
        refine ⟨by simp [hout], by simp [hout], ?_⟩
        intro hs
        exact absurd hs hsucc
    · rw [if_neg hg]
      exact ⟨h1, h2, h3⟩
  | recogDone resp =>
    rcases hL : s.outstanding with _ | ⟨⟨img, idx⟩, tl⟩
    · simp only [eeStep, hL]
      exact ⟨hL ▸ h1, hL ▸ h2, hL ▸ h3⟩
    · have htl : tl = [] := by
        rw [hL] at h1
        simpa using h1
      subst htl
      cases resp with
      | none =>
        simp only [eeStep, hL]
        exact ⟨by simp, by simp, fun _ => rfl⟩
      | some r =>
        by_cases hr : r.success = true
        · simp only [eeStep, hL, if_pos hr]
          exact ⟨by simp, by simp, fun _ => rfl⟩
        · simp only [eeStep, hL, if_neg hr]
          exact ⟨by simp, by simp, fun _ => rfl⟩
  | deleteTap i camOk =>
    rcases hget : s.allPhotos.get? i with _ | p
    · simp only [eeStep, deletePhoto, hget]
      exact ⟨h1, h2, h3⟩
    · by_cases hacc : (s.capturedImage = some p ∧ resultSuccess s = true)
      · simp only [eeStep, deletePhoto, hget, if_pos hacc]
        cases camOk <;>
          exact ⟨h1, h2, fun hs => by simp [resultSuccess, openCamera] at hs⟩
      · simp only [eeStep, deletePhoto, hget, if_neg hacc]
        exact ⟨h1, h2, h3⟩
  | doneTap => exact ⟨h1, h2, h3⟩
  | backTap => exact ⟨h1, h2, h3⟩
  | editPlate p => exact ⟨h1, h2, h3⟩
  | setLoad ls => exact ⟨h1, h2, h3⟩

theorem eeInv_foldl : ∀ (evs : List EEEvent) (s : EEState), EEInv s →
    EEInv (evs.foldl eeStep s)
  | [], _, h => h
  | e :: evs, s, h => eeInv_foldl evs (eeStep s e) (eeStep_inv h e)

theorem eeInv_run (evs : List EEEvent) : EEInv (runEE evs) :=
  eeInv_foldl evs eeInit eeInv_init

theorem length_filter_eq_le_one {α : Type} [DecidableEq α] (c : α) :
    ∀ l : List α, l.Nodup → (l.filter fun p => decide (c = p)).length ≤ 1
  | [], _ => by simp
  | x :: xs, h => by
    rw [List.filter_cons]
    by_cases hx : c = x
    · have hnotin : x ∉ xs := (List.nodup_cons.mp h).1
      have hnil : (xs.filter fun p => decide (c = p)) = [] := by
        apply List.filter_eq_nil_iff.mpr
        intro p hp hcp
        rw [decide_eq_true_eq] at hcp
        exact hnotin (by rw [hx] at hcp; exact hcp ▸ hp)
      rw [if_pos (by simp [hx]), hnil]
      simp
    · have := length_filter_eq_le_one c xs (List.nodup_cons.mp h).2
      simpa [hx] using this

/-- In any state, when the stored photos are pairwise distinct, at most one
gallery entry carries the accepted marker (the marker compares image data,
so duplicates of the accepted data would each carry it). -/
theorem countAccepted_le_one {s : EEState} (h : s.allPhotos.Nodup) :
    countAccepted s ≤ 1 := by
  unfold countAccepted
  cases hc : s.capturedImage with
  | none =>
    have hnil : (s.allPhotos.filter fun p => isAcceptedPhoto s p) = [] := by
      apply List.filter_eq_nil_iff.mpr
      intro p _
      simp [isAcceptedPhoto, hc]
    simp [hnil]
  | some c =>
    cases hr : resultSuccess s with
    | false =>
      have hnil : (s.allPhotos.filter fun p => isAcceptedPhoto s p) = [] := by
        apply List.filter_eq_nil_iff.mpr
        intro p _
        simp [isAcceptedPhoto, hr]
      simp [hnil]
    | true =>
      have hcongr : (s.allPhotos.filter fun p => isAcceptedPhoto s p)
          = s.allPhotos.filter fun p => decide (c = p) := by
        apply List.filter_congr
        intro p _
        simp [isAcceptedPhoto, hc, hr]
      rw [hcongr]
      exact length_filter_eq_le_one c s.allPhotos h

/-- Claim C8: within one multi-shot workflow instance at most one
recognition submission is ever outstanding: every reachable state has at
most one in-flight request, and while `isSubmitting` is set the capture
action is a no-op (the shutter button is `disabled={isSubmitting}`), so no
new capture can be submitted before the prior submission completes. -/
theorem single_outstanding_recognition (evs : List EEEvent) :
    (runEE evs).outstanding.length ≤ 1 ∧
    (∀ img, (runEE evs).isSubmitting = true →
       eeStep (runEE evs) (.captureTap img) = runEE evs) := by
  refine ⟨(eeInv_run evs).1, fun img hsub => ?_⟩
  simp only [eeStep]
  rw [if_neg]
  rintro ⟨_, hn⟩
  exact hn hsub

/-- Claim C8 witness: after opening the camera and capturing once, the
in-progress flag is set and a second capture tap leaves the state
unchanged. -/
theorem single_outstanding_recognition_witness :
    eeStep (runEE [.openCam true, .captureTap "a"]) (.captureTap "b")
      = runEE [.openCam true, .captureTap "a"] :=
  (single_outstanding_recognition [.openCam true, .captureTap "a"]).2 "b" (by decide)

/-- Claim C1 counterexample: the claim "at most one captured photo is marked
accepted at any time" fails when two captures produce byte-identical image
data.  Trace: open the camera, capture frame data `"x"`, recognition
succeeds, capture identical frame data `"x"` again (recognition is
skipped).  Both gallery entries then satisfy the accepted-marker predicate
`capturedImage === photo && recognitionResult?.success`. -/
theorem duplicate_capture_two_accepted :
    countAccepted (runEE [.openCam true, .captureTap "x",
        .recogDone (some ⟨"01A123BC", 1, true, none⟩), .captureTap "x"]) = 2 ∧
    ¬ countAccepted (runEE [.openCam true, .captureTap "x",
        .recogDone (some ⟨"01A123BC", 1, true, none⟩), .captureTap "x"]) ≤ 1 := by
  constructor <;> decide

/-- Claim C1 (amended): for every sequence of captures and deletions, at
most one captured photo is marked accepted at any time provided the
captured photos are pairwise distinct (byte-identical duplicates of the
accepted data each carry the marker); once a recognition result with
`success=true` has been stored, `processPhoto` skips recognition for every
later capture (the result, accepted image and in-flight request set are
untouched); and the accepted marker can only move when the user deletes a
photo whose data is the accepted one. -/
theorem accepted_marker_unique_amended (evs : List EEEvent) :
    ((runEE evs).allPhotos.Nodup → countAccepted (runEE evs) ≤ 1) ∧
    (∀ img, resultSuccess (runEE evs) = true →
       (eeStep (runEE evs) (.captureTap img)).recognitionResult
           = (runEE evs).recognitionResult ∧
       (eeStep (runEE evs) (.captureTap img)).capturedImage
           = (runEE evs).capturedImage ∧
       (eeStep (runEE evs) (.captureTap img)).outstanding
           = (runEE evs).outstanding) ∧
    (∀ e, resultSuccess (runEE evs) = true →
       (eeStep (runEE evs) e).capturedImage ≠ (runEE evs).capturedImage →
       ∃ i camOk, e = .deleteTap i camOk ∧ acceptedAt (runEE evs) i) := by
  refine ⟨fun hnd => countAccepted_le_one hnd, fun img hsucc => ?_, fun e hsucc hne => ?_⟩
  · simp only [eeStep]
    by_cases hg : ((runEE evs).isCameraOpen = true ∧ ¬ (runEE evs).isSubmitting = true)
    · have hsucc2 : resultSuccess
          { runEE evs with allPhotos := (runEE evs).allPhotos ++ [img] } = true := hsucc
      rw [if_pos hg, if_pos hsucc2]
      exact ⟨rfl, rfl, rfl⟩
    · rw [if_neg hg]
      exact ⟨rfl, rfl, rfl⟩
  · have hout : (runEE evs).outstanding = [] := (eeInv_run evs).2.2 hsucc
    cases e with
    | openCam camOk =>
      cases camOk <;> exact absurd rfl hne
    | captureTap img =>
      by_cases hg : ((runEE evs).isCameraOpen = true ∧ ¬ (runEE evs).isSubmitting = true)
      · have hsucc2 : resultSuccess
            { runEE evs with allPhotos := (runEE evs).allPhotos ++ [img] } = true := hsucc
        simp only [eeStep, if_pos hg, if_pos hsucc2] at hne
        exact absurd rfl hne
      · simp only [eeStep, if_neg hg] at hne
        exact absurd rfl hne
    | recogDone resp =>
      simp only [eeStep, hout] at hne
      exact absurd rfl hne
    | deleteTap i camOk =>
      rcases hget : (runEE evs).allPhotos.get? i with _ | p
      · simp only [eeStep, deletePhoto, hget] at hne
        exact absurd rfl hne
      · by_cases hacc : ((runEE evs).capturedImage = some p ∧
            resultSuccess (runEE evs) = true)
        · exact ⟨i, camOk, rfl, ⟨p, hget, hacc.1, hacc.2⟩⟩
        · simp only [eeStep, deletePhoto, hget, if_neg hacc] at hne
          exact absurd rfl hne
    | doneTap => exact absurd rfl hne
    | backTap => exact absurd rfl hne
    | editPlate p => exact absurd rfl hne
    | setLoad ls => exact absurd rfl hne

/-- Claim C1 witness: a concrete open–capture–succeed trace has pairwise
distinct photos and exactly at most one accepted entry. -/
theorem accepted_marker_unique_amended_witness :
    countAccepted (runEE [.openCam true, .captureTap "a",
        .recogDone (some ⟨"01A123BC", 1, true, none⟩)]) ≤ 1 :=
  (accepted_marker_unique_amended [.openCam true, .captureTap "a",
      .recogDone (some ⟨"01A123BC", 1, true, none⟩)]).1 (by decide)

/-- Claim C9: deleting a photo that is not the currently-accepted one
removes exactly that element from the photo list, preserving the order of
the remaining photos, and leaves the accepted image, the recognition
result, the plate field and the camera-open state unchanged. -/
theorem delete_nonaccepted_frame_effect (s : EEState) (i : Nat) (camOk : Bool)
    (hi : i < s.allPhotos.length) (hna : ¬ acceptedAt s i) :
    (eeStep s (.deleteTap i camOk)).allPhotos
        = s.allPhotos.take i ++ s.allPhotos.drop (i + 1) ∧
    (eeStep s (.deleteTap i camOk)).capturedImage = s.capturedImage ∧
    (eeStep s (.deleteTap i camOk)).recognitionResult = s.recognitionResult ∧
    (eeStep s (.deleteTap i camOk)).plateNumber = s.plateNumber ∧
    (eeStep s (.deleteTap i camOk)).isCameraOpen = s.isCameraOpen := by
  obtain ⟨p, hget⟩ : ∃ p, s.allPhotos.get? i = some p := by
    rw [List.get?_eq_get hi]
    exact ⟨_, rfl⟩
  have hacc : ¬ (s.capturedImage = some p ∧ resultSuccess s = true) := by
    intro hc
    exact hna ⟨p, hget, hc.1, hc.2⟩
  refine ⟨?_, ?_, ?_, ?_, ?_⟩ <;>
    simp only [eeStep, deletePhoto, hget, if_neg hacc]
  exact List.eraseIdx_eq_take_drop_succ s.allPhotos i

/-- Claim C9 witness: in a concrete two-photo state with no accepted photo,
deleting index 0 removes exactly that photo. -/
theorem delete_nonaccepted_frame_effect_witness :
    (eeStep (runEE [.openCam true, .captureTap "a", .recogDone none,
        .captureTap "b"]) (.deleteTap 0 true)).allPhotos
      = (runEE [.openCam true, .captureTap "a", .recogDone none,
        .captureTap "b"]).allPhotos.take 0 ++
        (runEE [.openCam true, .captureTap "a", .recogDone none,
        .captureTap "b"]).allPhotos.drop 1 :=
  (delete_nonaccepted_frame_effect (runEE [.openCam true, .captureTap "a",
      .recogDone none, .captureTap "b"]) 0 true (by decide) (by decide)).1

end ExitEntry

/-- Claim C4 counterexample: in the exit-by-id workflow, a state holds an
accepted photo (captured photo present, stored result successful) with the
camera closed; `deletePhoto` clears the photo, result and plate but does
not reopen the camera, contradicting "reopens the camera — in all workflow
variants". -/
theorem delete_accepted_does_not_reopen_camera :
    ExitById.sampleAccepted.capturedPhoto ≠ none ∧
    ExitById.sampleAccepted.recognitionResult.elim false RecognitionResult.success = true ∧
    (ExitById.deletePhoto ExitById.sampleAccepted).capturedPhoto = none ∧
    (ExitById.deletePhoto ExitById.sampleAccepted).recognitionResult = none ∧
    (ExitById.deletePhoto ExitById.sampleAccepted).plateNumber = "" ∧
    (ExitById.deletePhoto ExitById.sampleAccepted).isCameraOpen = false :=
  ⟨by decide, rfl, rfl, rfl, rfl, rfl⟩

/-- Claim C4 (amended): deleting the currently-accepted photo clears the
stored recognition result, the accepted image and the plate field in both
workflow variants; the camera is reopened in the multi-shot variant
(whenever the awaited `openCamera` succeeds — a failed reopen alerts and
leaves it closed), while the exit-by-id variant leaves the camera-open flag
untouched and instead renders the capture button in place of the photo. -/
theorem delete_accepted_clears_amended :
    (∀ (s : ExitEntry.EEState) (i : Nat) (camOk : Bool), ExitEntry.acceptedAt s i →
       (ExitEntry.eeStep s (.deleteTap i camOk)).capturedImage = none ∧
       (ExitEntry.eeStep s (.deleteTap i camOk)).recognitionResult = none ∧
       (ExitEntry.eeStep s (.deleteTap i camOk)).plateNumber = "" ∧
       (camOk = true → (ExitEntry.eeStep s (.deleteTap i camOk)).isCameraOpen = true)) ∧
    (∀ t : ExitById.ByIdState,
       (ExitById.deletePhoto t).capturedPhoto = none ∧
       (ExitById.deletePhoto t).recognitionResult = none ∧
       (ExitById.deletePhoto t).plateNumber = "" ∧
       (ExitById.deletePhoto t).isCameraOpen = t.isCameraOpen) := by
  constructor
  · rintro s i camOk ⟨p, hget, hc, hr⟩
    have hcond : s.capturedImage = some p ∧ ExitEntry.resultSuccess s = true := ⟨hc, hr⟩
    simp only [ExitEntry.eeStep, ExitEntry.deletePhoto, hget, if_pos hcond]
    cases camOk
    · exact ⟨rfl, rfl, rfl, fun h => absurd h Bool.false_ne_true⟩
    · exact ⟨rfl, rfl, rfl, fun _ => rfl⟩
  · intro t
    exact ⟨rfl, rfl, rfl, rfl⟩

/-- Claim C4 witness: deleting the accepted photo in a concrete multi-shot
state clears the accepted image, and in a concrete exit-by-id state clears
the plate field. -/
theorem delete_accepted_clears_amended_witness :
    (ExitEntry.eeStep (ExitEntry.runEE [.openCam true, .captureTap "x",
        .recogDone (some ⟨"01A123BC", 1, true, none⟩)]) (.deleteTap 0 true)).capturedImage
      = none ∧
    (ExitById.deletePhoto ExitById.sampleAccepted).plateNumber = "" :=
  ⟨(delete_accepted_clears_amended.1 (ExitEntry.runEE [.openCam true, .captureTap "x",
      .recogDone (some ⟨"01A123BC", 1, true, none⟩)]) 0 true (by decide)).1,
   (delete_accepted_clears_amended.2 ExitById.sampleAccepted).2.2.1⟩

namespace ExitById

/-- Claim C3: in the exit-by-id workflow, when recognition succeeds and an
expected plate is known (non-empty after normalization): if the recognized
plate equals the expected plate after stripping whitespace and uppercasing
both, no toast is shown; otherwise the mismatch toast is shown; in both
cases the plate field is set to the recognized value, the captured photo is
kept, and recognition ends (acceptance is not blocked). -/
theorem mismatch_warning_spec (s : ByIdState) (d : String) (r : RecognitionResult)
    (v : VehicleInfo) (hv : s.vehicleData = some v)
    (hknown : normalizePlate v.license_plate ≠ "") (hs : r.success = true) :
    (normalizePlate r.plate_number = normalizePlate v.license_plate →
       (handleCameraCapture s (some d) (some r)).2 = []) ∧
    (normalizePlate r.plate_number ≠ normalizePlate v.license_plate →
       (handleCameraCapture s (some d) (some r)).2
         = [mismatchMsg r.plate_number v.license_plate]) ∧
    (handleCameraCapture s (some d) (some r)).1.plateNumber = r.plate_number ∧
    (handleCameraCapture s (some d) (some r)).1.capturedPhoto = some d ∧
    (handleCameraCapture s (some d) (some r)).1.isRecognizing = false := by
  refine ⟨fun heq => ?_, fun hne => ?_, ?_, ?_, ?_⟩ <;>
    simp only [handleCameraCapture, capturePhoto, if_pos hs, hv]
  · rw [if_neg]
    rintro ⟨_, hcne⟩
    exact hcne heq
  · rw [if_pos ⟨hknown, hne⟩]

/-- Claim C3 witness: a recognized plate differing from the expected one
only by letter case and whitespace raises no toast. -/
theorem mismatch_warning_spec_witness :
    (handleCameraCapture ⟨some ⟨7, "01A123BC"⟩, false, false, false, false,
        none, "", .EMPTY, false, none⟩ (some "d")
        (some ⟨"01 a 123 bc", 1, true, none⟩)).2 = [] :=
  (mismatch_warning_spec ⟨some ⟨7, "01A123BC"⟩, false, false, false, false,
      none, "", .EMPTY, false, none⟩ "d" ⟨"01 a 123 bc", 1, true, none⟩
      ⟨7, "01A123BC"⟩ rfl (by decide) rfl).1 (by decide)

end ExitById

/-- Claim C6: in every workflow variant, exit submission is blocked
client-side whenever the plate string trims to empty or zero photos have
been captured: no request is issued, a validation toast is shown, and the
submit button is not rendered in those states. -/
theorem submit_validation_guard :
    (∀ s : ExitEntry.EEState, jsTrim s.plateNumber = "" ∨ s.allPhotos = [] →
       (ExitEntry.submitExitEntryReq s).1 = none ∧
       (ExitEntry.submitExitEntryReq s).2 ≠ [] ∧
       ExitEntry.submitAvailable s = false) ∧
    (∀ t : ExitById.ByIdState, jsTrim t.plateNumber = "" ∨ t.capturedPhoto = none →
       (ExitById.submitExitReq t).1 = none ∧
       (ExitById.submitExitReq t).2 ≠ [] ∧
       ExitById.submitAvailable t = false) := by
  constructor
  · rintro s (h | h)
    · refine ⟨?_, ?_, ?_⟩ <;>
        simp [ExitEntry.submitExitEntryReq, ExitEntry.submitAvailable, h]
    · by_cases hp : jsTrim s.plateNumber = "" <;>
        refine ⟨?_, ?_, ?_⟩ <;>
          simp [ExitEntry.submitExitEntryReq, ExitEntry.submitAvailable, h, hp]
  · rintro t (h | h)
    · by_cases hc : t.capturedPhoto = none <;>
        refine ⟨?_, ?_, ?_⟩ <;>
          simp [ExitById.submitExitReq, ExitById.submitAvailable, h, hc]
    · refine ⟨?_, ?_, ?_⟩ <;>
        simp [ExitById.submitExitReq, ExitById.submitAvailable, h]

/-- Claim C6 witness: the empty initial multi-shot state and an exit-by-id
state without a photo both issue no request. -/
theorem submit_validation_guard_witness :
    (ExitEntry.submitExitEntryReq ExitEntry.eeInit).1 = none ∧
    (ExitById.submitExitReq ⟨none, false, false, false, false, none, "",
        .EMPTY, false, none⟩).1 = none :=
  ⟨(submit_validation_guard.1 ExitEntry.eeInit (Or.inl (by decide))).1,
   (submit_validation_guard.2 ⟨none, false, false, false, false, none, "",
      .EMPTY, false, none⟩ (Or.inr rfl)).1⟩

/-- Claim C7 counterexample, refuting the claim as stated at two concrete
inputs of the multi-shot page.  First, a non-2xx response whose body is
well-formed JSON containing an `error.message` field holding the empty
string shows the generic notice, not exactly that (empty) message: the
fallback `errorJson.error?.message || 'Хатолик юз берди'` treats the empty
string as falsy.  Second, "if the server responds 2xx, a success notice is
shown and the app navigates back" fails in `submitExitEntry` when the 2xx
body is not well-formed JSON: `await response.json()` throws into the
`catch`, which shows the failure toast and never navigates. -/
theorem exit_response_counterexample :
    (ExitEntry.handleSubmitResponse false (.json (some "")) "e"
        = ([Submit.genericErrMsg], none) ∧
      Submit.genericErrMsg ≠ "") ∧
    ExitEntry.handleSubmitResponse true .malformed "Unexpected end of JSON input"
        = (["Хатолик: Unexpected end of JSON input"], none) :=
  ⟨⟨rfl, by decide⟩, rfl⟩

/-- Claim C7 (amended): on a non-2xx exit-submission response, in both
workflow variants, a well-formed JSON body with a non-empty `error.message`
shows exactly that message, and a malformed body, a missing
`error.message`, or an empty-string message shows the generic notice; no
navigation occurs on failure.  On a 2xx response, the exit-by-id variant —
and the multi-shot variant whenever the 2xx body is well-formed JSON —
shows the success notice and schedules navigation back to the vehicles list
after a 1000 ms delay; in the multi-shot variant a 2xx body that fails JSON
parsing instead reaches the catch handler, which shows
`'Хатолик: ' + <thrown message>` and does not navigate. -/
theorem exit_response_handling_amended :
    (∀ (m e : String), m ≠ "" →
       ExitEntry.handleSubmitResponse false (.json (some m)) e = ([m], none) ∧
       ExitById.handleSubmitResponse false (.json (some m)) = ([m], none)) ∧
    (∀ e, ExitEntry.handleSubmitResponse false .malformed e
        = ([Submit.genericErrMsg], none)) ∧
    (∀ e, ExitEntry.handleSubmitResponse false (.json none) e
        = ([Submit.genericErrMsg], none)) ∧
    (∀ e, ExitEntry.handleSubmitResponse false (.json (some "")) e
        = ([Submit.genericErrMsg], none)) ∧
    ExitById.handleSubmitResponse false .malformed = ([Submit.genericErrMsg], none) ∧
    ExitById.handleSubmitResponse false (.json none) = ([Submit.genericErrMsg], none) ∧
    ExitById.handleSubmitResponse false (.json (some ""))
        = ([Submit.genericErrMsg], none) ∧
    (∀ (em : Option String) (e : String),
       ExitEntry.handleSubmitResponse true (.json em) e
         = ([Submit.successMsg], some 1000)) ∧
    (∀ e, ExitEntry.handleSubmitResponse true .malformed e
        = (["Хатолик: " ++ e], none)) ∧
    (∀ body, ExitById.handleSubmitResponse true body
        = ([Submit.successMsg], some 1000)) := by
  refine ⟨fun m e hm => ⟨?_, ?_⟩, fun e => rfl, fun e => rfl, fun e => rfl,
    rfl, rfl, rfl, fun em e => rfl, fun e => rfl, fun body => rfl⟩
  · simp [ExitEntry.handleSubmitResponse, Submit.exitErrorNotice, hm]
  · simp [ExitById.handleSubmitResponse, Submit.exitErrorNotice, hm]

/-- Claim C7 witness: the spec's end-to-end scenario — a non-2xx response
with body `{error:{message:"Duplicate entry"}}` shows exactly
"Duplicate entry" and does not navigate. -/
theorem exit_response_handling_amended_witness :
    ExitEntry.handleSubmitResponse false (.json (some "Duplicate entry")) "e"
      = (["Duplicate entry"], none) :=
  (exit_response_handling_amended.1 "Duplicate entry" "e" (by decide)).1

namespace Vehicles

theorem vInv_init : VInv vInit :=
  ⟨rfl, fun u hu => by simp [vInit] at hu⟩

theorem vStep_inv {s : VState} (h : VInv s) (e : VEvent) : VInv (vStep s e).1 := by
  obtain ⟨h1, h2⟩ := h
  cases e with
  | initialLoad =>
    simp only [vStep, fetchStart]
    by_cases hl : s.isLoadingList = true
    · rw [if_pos hl]
      exact ⟨h1, h2⟩
    · rw [if_neg hl]
      exact ⟨rfl, fun u hu => by simp at hu⟩
  | loadMoreTap =>
    rcases hn : s.nextPageUrl with _ | u
    · simp only [vStep, hn]
      exact ⟨h1, h2⟩
    · simp only [vStep, hn]
      by_cases hg : (u ≠ "" ∧ s.hasMoreData = true ∧ ¬ s.isLoadingList = true)
      · rw [if_pos hg]
        simp only [fetchStart]
        rw [if_neg hg.2.2]
        refine ⟨rfl, fun w hw => ?_⟩
        have : u = w := by
          have := Option.some.inj (Option.some.inj hw)
          exact this
        rw [← this]
        exact hn
      · rw [if_neg hg]
        exact ⟨h1, h2⟩
  | response r =>
    rcases hp : s.pendingReq with _ | url
    · simp only [vStep, hp]
      exact ⟨h1, h2⟩
    · cases r with
      | none =>
        simp only [vStep, hp]
        exact ⟨rfl, fun u hu => by simp at hu⟩
      | some d =>
        simp only [vStep, hp]
        exact ⟨rfl, fun u hu => by simp at hu⟩

theorem vInv_foldl : ∀ (evs : List VEvent) (s : VState), VInv s →
    VInv (evs.foldl (fun s e => (vStep s e).1) s)
  | [], _, h => h
  | e :: evs, s, h => vInv_foldl evs (vStep s e).1 (vStep_inv h e)

theorem vInv_run (evs : List VEvent) : VInv (runV evs) :=
  vInv_foldl evs vInit vInv_init

/-- Claim C5: in the vehicles list, every in-flight next-page request uses
exactly the opaque cursor URL last returned by the server; a page response
appends its results after the previously loaded entries in server order; no
request is issued by `loadMore` while another list request is in flight
(the state is also unchanged); and once the server has returned a null
`next` cursor, `loadMore` issues no further request. -/
theorem pagination_spec (evs : List VEvent) :
    (∀ u, (runV evs).pendingReq = some (some u) → (runV evs).nextPageUrl = some u) ∧
    (∀ u d, (runV evs).pendingReq = some (some u) →
       (vStep (runV evs) (.response (some d))).1.vehicleEntries
         = (runV evs).vehicleEntries ++ d.results) ∧
    ((runV evs).isLoadingList = true →
       vStep (runV evs) .loadMoreTap = ((runV evs), none)) ∧
    ((runV evs).nextPageUrl = none →
       vStep (runV evs) .loadMoreTap = ((runV evs), none)) := by
  refine ⟨(vInv_run evs).2, fun u d hp => ?_, fun hl => ?_, fun hn => ?_⟩
  · simp only [vStep, hp]
  · rcases hn2 : (runV evs).nextPageUrl with _ | u
    · simp only [vStep, hn2]
    · simp only [vStep, hn2]
      rw [if_neg]
      rintro ⟨_, _, hnl⟩
      exact hnl hl
  · simp only [vStep, hn]

/-- Claim C5 witness: after an initial load whose response carries cursor
"page2" and a subsequent `loadMore`, the in-flight request is exactly
"page2", the cursor last returned. -/
theorem pagination_spec_witness :
    (runV [.initialLoad, .response (some ⟨[⟨1, "01A111AA"⟩], some "page2"⟩),
        .loadMoreTap]).nextPageUrl = some "page2" :=
  (pagination_spec [.initialLoad, .response (some ⟨[⟨1, "01A111AA"⟩], some "page2"⟩),
      .loadMoreTap]).1 "page2" (by decide)

end Vehicles

namespace Capture

/-- Claim C2: the claim (and spec) state that every captured frame is
downscaled to at most 1280×720; the code violates the height bound.  A
1440×1440 frame takes the `videoWidth > maxWidth` branch, which sets the
width to 1280 and the height to `1280 / aspectRatio` without re-checking it
against 720, yielding a 1280×1280 canvas. -/
theorem capture_height_bound_violation :
    capturePhotoDims 1440 1440 = (1280, 1280) ∧
    ¬ ((capturePhotoDims 1440 1440).2 ≤ 720) := by
  constructor <;> norm_num [capturePhotoDims]

end Capture

namespace B64

theorem jsSplit_no_sep {sep : Char} : ∀ (b : List Char), sep ∉ b → jsSplit sep b = [b]
  | [], _ => rfl
  | c :: rest, h => by
    have hc : ¬ c = sep := fun e => h (by rw [e]; exact List.mem_cons_self _ _)
    have ih := jsSplit_no_sep rest (fun hm => h (List.mem_cons_of_mem c hm))
    rw [jsSplit, if_neg hc, ih]

theorem jsSplit_append_sep {sep : Char} : ∀ (a : List Char), sep ∉ a → ∀ (b : List Char),
    jsSplit sep (a ++ sep :: b) = a :: jsSplit sep b
  | [], _, b => by
    show jsSplit sep (sep :: b) = [] :: jsSplit sep b
    rw [jsSplit, if_pos rfl]
  | c :: rest, h, b => by
    have hc : ¬ c = sep := fun e => h (by rw [e]; exact List.mem_cons_self _ _)
    have ih := jsSplit_append_sep rest (fun hm => h (List.mem_cons_of_mem c hm)) b
    show jsSplit sep (c :: (rest ++ sep :: b)) = (c :: rest) :: jsSplit sep b
    rw [jsSplit, if_neg hc, ih]

theorem takeUntilSemi_append : ∀ (m : List Char), ';' ∉ m →
    (∀ c ∈ m, dotExcluded c = false) → ∀ (r : List Char),
    takeUntilSemi (m ++ ';' :: r) = some m
  | [], _, _, r => by
    show takeUntilSemi (';' :: r) = some []
    rw [takeUntilSemi, if_pos rfl]
  | c :: rest, h1, h2, r => by
    have hc : ¬ c = ';' := fun e => h1 (by rw [e]; exact List.mem_cons_self _ _)
    have hnd : ¬ (dotExcluded c = true) := by
      rw [h2 c (List.mem_cons_self _ _)]
      exact Bool.false_ne_true
    have ih := takeUntilSemi_append rest (fun hm => h1 (List.mem_cons_of_mem c hm))
      (fun x hx => h2 x (List.mem_cons_of_mem c hx)) r
    show takeUntilSemi (c :: (rest ++ ';' :: r)) = some (c :: rest)
    rw [takeUntilSemi, if_neg hc, if_neg hnd, ih]

theorem matchMime_cons_ne (c : Char) (rest : List Char) (hc : ¬ c = ':') :
    matchMime (c :: rest) = matchMime rest := by
  rw [matchMime, if_neg hc]

theorem matchMime_data (m : List Char) (h1 : ';' ∉ m)
    (h2 : ∀ c ∈ m, dotExcluded c = false) (r : List Char) :
    matchMime ("data:".data ++ (m ++ ';' :: r)) = some m := by
  show matchMime ('d' :: 'a' :: 't' :: 'a' :: ':' :: (m ++ ';' :: r)) = some m
  rw [matchMime_cons_ne _ _ (by decide), matchMime_cons_ne _ _ (by decide),
    matchMime_cons_ne _ _ (by decide), matchMime_cons_ne _ _ (by decide),
    matchMime, if_pos rfl, takeUntilSemi_append m h1 h2 r]

theorem drop_set_cons {α : Type} : ∀ (l : List α) (k : Nat) (v : α), k < l.length →
    (l.set k v).drop k = v :: l.drop (k + 1)
  | [], k, v, h => absurd h (by simp)
  | x :: xs, 0, v, _ => rfl
  | x :: xs, k + 1, v, h => drop_set_cons xs k v (by simpa using h)

theorem take_succ_getD {α : Type} : ∀ (l : List α) (k : Nat) (d : α), k < l.length →
    l.take (k + 1) = l.take k ++ [l.getD k d]
  | [], k, d, h => absurd h (by simp)
  | x :: xs, 0, d, _ => rfl
  | x :: xs, k + 1, d, h =>
    congrArg (List.cons x) (take_succ_getD xs k d (by simpa using h))

theorem fillLoop_eq (bstr : List Nat) : ∀ (k : Nat) (u8 : List Nat), k ≤ bstr.length →
    u8.length = bstr.length → fillLoop bstr u8 k = bstr.take k ++ u8.drop k
  | 0, u8, _, _ => by simp [fillLoop]
  | k + 1, u8, hk, hlen => by
    have hkb : k < bstr.length := hk
    have hku : k < u8.length := by omega
    simp only [fillLoop]
    rw [fillLoop_eq bstr k (u8.set k (bstr.getD k 0)) (Nat.le_of_succ_le hk)
        (by simp [hlen]),
      drop_set_cons u8 k (bstr.getD k 0) hku, take_succ_getD bstr k 0 hkb]
    simp

/-- The `while (n--)` loop copies the decoded binary string into the byte
array in order: starting from a zero-filled array of the right length, the
result is the byte list itself. -/
theorem fillLoop_id (bstr : List Nat) :
    fillLoop bstr (List.replicate bstr.length 0) bstr.length = bstr := by
  rw [fillLoop_eq bstr bstr.length (List.replicate bstr.length 0) le_rfl (by simp)]
  simp

/-- Claim C10: for every input of the form `data:<mime>;base64,<payload>`
(where `<mime>` is non-empty and free of the delimiters `';'`, `','` and
`.`-unmatchable characters, and `<payload>` is comma-free), `base64ToBlob`
returns a blob whose byte sequence is the base64 decoding of the payload —
byte `i` is the code point at position `i` of the `atob` result — and whose
type is `<mime>`; and for any comma-free header in which `/:(.*?);/` finds
no capture, the type defaults to `image/png` (an empty capture also
defaults, via the `|| 'image/png'` fallback). -/
theorem base64ToBlob_spec (mime payload : List Char) (bytes : List Nat)
    (hm0 : mime ≠ []) (hm1 : ';' ∉ mime) (hm2 : ',' ∉ mime)
    (hm3 : ∀ c ∈ mime, dotExcluded c = false)
    (hp : ',' ∉ payload) (hdec : atobBytes payload = some bytes) :
    base64ToBlob ("data:".data ++ mime ++ ";base64,".data ++ payload)
      = some ⟨bytes, mime⟩ ∧
    (∀ hdr : List Char, ',' ∉ hdr → matchMime hdr = none →
       base64ToBlob (hdr ++ ',' :: payload) = some ⟨bytes, "image/png".data⟩) := by
  constructor
  · have hform : "data:".data ++ mime ++ ";base64,".data ++ payload
        = ("data:".data ++ (mime ++ ';' :: "base64".data)) ++ ',' :: payload := by
      simp only [List.append_assoc, List.cons_append]
      rfl
    have hnotin : ',' ∉ "data:".data ++ (mime ++ ';' :: "base64".data) := by
      intro hmem
      rcases List.mem_append.mp hmem with h | h
      · revert h
        decide
      · rcases List.mem_append.mp h with h | h
        · exact hm2 h
        · revert h
          decide
    rw [hform]
    simp only [base64ToBlob, jsSplit_append_sep _ hnotin payload,
      jsSplit_no_sep payload hp, List.headD, List.get?,
      matchMime_data mime hm1 hm3 "base64".data, if_neg hm0, hdec,
      fillLoop_id bytes]
  · intro hdr hh hnone
    simp only [base64ToBlob, jsSplit_append_sep hdr hh payload,
      jsSplit_no_sep payload hp, List.headD, List.get?, hnone, hdec,
      fillLoop_id bytes]

/-- Claim C10 witness: `base64ToBlob "data:image/jpeg;base64,QUJD"` is the
blob with bytes `[65, 66, 67]` (the decoding of `"QUJD"`, i.e. `"ABC"`) and
type `image/jpeg`. -/
theorem base64ToBlob_spec_witness :
    base64ToBlob ("data:".data ++ "image/jpeg".data ++ ";base64,".data ++ "QUJD".data)
      = some ⟨[65, 66, 67], "image/jpeg".data⟩ :=
  (base64ToBlob_spec "image/jpeg".data "QUJD".data [65, 66, 67] (by decide)
    (by decide) (by decide) (by decide) (by decide) (by decide)).1

end B64

end MTT
